import Mathlib

/-!
Shallow embedding of `src/FixyFixyPictures.py` (image-repair tool).

The embedding models the two core components of the program:

* the Piece Locator: `extract_number_from_filename` (lines 29-36), the
  sort of the discovered files by that key (line 65), and the
  missing-number report (lines 69-79);
* the Grid Composer: `determine_grid_layout` (lines 84-122) and
  `reconstruct_image` (lines 125-185).

Python exceptions raised by `PIL.Image.open` are modelled with `Except`:
every call of `Image.open` on a piece becomes `openPiece`, which succeeds
or fails according to the piece's `readOk` flag.  Machine integers are
modelled as `Nat` (all quantities involved - counts, pixel sizes,
indices - are non-negative and no overflow is possible in Python).
`int(math.sqrt(n))` is modelled as `Nat.sqrt n` (exact for the bounded
piece counts the program handles).  Python's regex `\d` is modelled as
the ASCII decimal digits.
-/

namespace FixyFixy

/-- PIL color modes relevant to the program (`Image.mode` strings).
`one` stands for PIL's bilevel mode `"1"`. -/
inductive Mode where
  | one | L | LA | P | PA | I | F | RGB | RGBA | CMYK | YCbCr | HSV
deriving DecidableEq

/-- Number of channels of a PIL mode. -/
def Mode.channels : Mode → Nat
  | .one | .L | .P | .I | .F => 1
  | .LA | .PA => 2
  | .RGB | .YCbCr | .HSV => 3
  | .RGBA | .CMYK => 4

/-- Whether a PIL mode carries an explicit transparency (alpha) channel. -/
def Mode.hasAlphaChannel : Mode → Bool
  | .LA | .PA | .RGBA => true
  | _ => false

/-- A piece file on disk: its path, the image data PIL would decode from
it (width, height, mode), and whether `Image.open` succeeds on it. -/
structure Piece where
  filename : String
  width : Nat
  height : Nat
  mode : Mode
  readOk : Bool
deriving DecidableEq

/-- What `Image.open` returns when it succeeds. -/
structure ImageData where
  width : Nat
  height : Nat
  mode : Mode
deriving DecidableEq

/-- `Image.open(piece_file)`: succeeds with the piece's image data, or
raises (modelled as `Except.error` carrying the path). -/
def openPiece (p : Piece) : Except String ImageData :=
  if p.readOk then Except.ok ⟨p.width, p.height, p.mode⟩ else Except.error p.filename

/-- The divisor-search loop of `determine_grid_layout` (lines 113-116):
`for cols in range(sqrt_pieces, 0, -1): if num_pieces % cols == 0: ...`.
`divisor_search n s` scans `s, s-1, ..., 1` and returns the first value
that divides `n`, or `none` if the scan is empty (`s = 0`). -/
def divisor_search (num_pieces : Nat) : Nat → Option Nat
  | 0 => none
  | c + 1 =>
    if num_pieces % (c + 1) = 0 then some (c + 1) else divisor_search num_pieces c

/-- The pure layout computation of `determine_grid_layout` (lines 94-122),
after the first piece's dimensions have been read: the two 1-pixel-strip
branches (lines 99-106), the divisor search near the square root
(lines 109-116), and the two fallback returns (lines 118-122). -/
def grid_layout_core (num_pieces piece_width piece_height : Nat) : Nat × Nat :=
  if piece_width = 1 then (num_pieces, 1)
  else if piece_height = 1 then (1, num_pieces)
  else
    let sqrt_pieces := Nat.sqrt num_pieces
    match divisor_search num_pieces sqrt_pieces with
    | some cols => (cols, num_pieces / cols)
    | none =>
      if num_pieces = 1000 then (40, 25) else (sqrt_pieces, sqrt_pieces)

/-- `determine_grid_layout(piece_files)` (lines 84-122): `(1, 1)` on an
empty list (line 86-87, before any file is opened), otherwise it opens
the first piece (line 90, fallible) and computes the layout from the
piece count and the first piece's dimensions. -/
def determine_grid_layout (piece_files : List Piece) : Except String (Nat × Nat) :=
  match piece_files with
  | [] => Except.ok (1, 1)
  | p :: rest =>
    (openPiece p).map fun d => grid_layout_core (p :: rest).length d.width d.height

/-- One `reconstructed.paste(piece, (x, y))` call, recorded as the index
of the piece and the pixel offset it was pasted at. -/
structure Placement where
  index : Nat
  x : Nat
  y : Nat
deriving DecidableEq

/-- The placement loop of `reconstruct_image` (lines 156-174): starting
at index `i`, walk the remaining pieces; break (returning the placements
made) as soon as the index reaches `grid_cols * grid_rows`; otherwise
open the piece (fallible, line 171) and paste it at
`((i % grid_cols) * piece_width, (i / grid_cols) * piece_height)`
(lines 163-172). -/
def paste_loop (grid_cols grid_rows piece_width piece_height : Nat) :
    Nat → List Piece → Except String (List Placement)
  | _, [] => Except.ok []
  | i, p :: rest =>
    if grid_cols * grid_rows ≤ i then Except.ok []
    else do
      let _ ← openPiece p
      let tail ← paste_loop grid_cols grid_rows piece_width piece_height (i + 1) rest
      Except.ok (⟨i, (i % grid_cols) * piece_width, (i / grid_cols) * piece_height⟩ :: tail)

/-- The image persisted by `reconstructed.save(output_path)` (line 181):
its pixel dimensions, its mode, the pastes performed on the canvas in
order, and the final value of the `pieces_placed` counter. -/
structure SavedImage where
  width : Nat
  height : Nat
  mode : Mode
  placements : List Placement
  pieces_placed : Nat
deriving DecidableEq

/-- `reconstruct_image(piece_files)` (lines 125-185): returns `None` on an
empty list (modelled `Except.ok none`); otherwise reads the first piece's
dimensions (line 134), determines the layout (line 139), re-opens the
first piece for the canvas mode (lines 146-147, normalising to `RGB`
unless the mode is already `RGB` or `RGBA`), runs the placement loop
(lines 156-174) and saves the canvas (line 181).  Any `Image.open`
failure propagates as `Except.error`, in which case the save is never
reached. -/
def reconstruct_image (piece_files : List Piece) : Except String (Option SavedImage) :=
  match piece_files with
  | [] => Except.ok none
  | p :: rest => do
    let first ← openPiece p
    let layout ← determine_grid_layout (p :: rest)
    let grid_cols := layout.1
    let grid_rows := layout.2
    let full_width := first.width * grid_cols
    let full_height := first.height * grid_rows
    let sample ← openPiece p
    let mode := if sample.mode = Mode.RGB ∨ sample.mode = Mode.RGBA then sample.mode else Mode.RGB
    let placements ← paste_loop grid_cols grid_rows first.width first.height 0 (p :: rest)
    Except.ok (some ⟨full_width, full_height, mode, placements, placements.length⟩)

/-- The characters after the last `/` of a character list. -/
def after_last_slash (cs : List Char) : List Char :=
  cs.foldl (fun acc c => if c = '/' then [] else acc ++ [c]) []

/-- `os.path.basename` on a POSIX path: the part after the last `/`. -/
def basename (filepath : String) : String :=
  ⟨after_last_slash filepath.data⟩

/-- Numeric value of a run of decimal digits, as `int()` computes it. -/
def digits_value (ds : List Char) : Nat :=
  ds.foldl (fun acc c => acc * 10 + (c.toNat - 48)) 0

/-- `re.search(r'(\d+)', s)`: the first maximal run of decimal digits in
`s`, or `none` when `s` has no digit. -/
def first_digit_run : List Char → Option (List Char)
  | [] => none
  | c :: cs =>
    if c.isDigit then some (c :: cs.takeWhile Char.isDigit) else first_digit_run cs

/-- `extract_number_from_filename(filepath)` (lines 29-36): the integer
value of the first digit run of the basename, or 0 when the basename has
no digit. -/
def extract_number_from_filename (filepath : String) : Nat :=
  match first_digit_run (basename filepath).data with
  | some ds => digits_value ds
  | none => 0

/-- The comparison key used by `image_files.sort(key=extract_number_from_filename)`
(line 65), as a Boolean `≤` on extracted numbers. -/
def number_le (a b : String) : Bool :=
  decide (extract_number_from_filename a ≤ extract_number_from_filename b)

/-- The sort at line 65.  Python's `list.sort` is a stable sort by the
key; a stable sort is modelled by `List.mergeSort` (itself stable) under
the key comparison. -/
def sort_image_files (image_files : List String) : List String :=
  image_files.mergeSort number_le

/-- `numbers = [extract_number_from_filename(f) for f in image_files]` (line 71). -/
def observed_numbers (image_files : List String) : List Nat :=
  image_files.map extract_number_from_filename

/-- The missing-piece computation of `extract_pieces` (lines 70-77):
`expected = set(range(min(numbers), max(numbers)+1))`,
`missing = expected - set(numbers)`; the empty-list case is unreachable
behind the `if image_files:` guard (line 70) and yields `∅` here. -/
def missing_numbers (image_files : List String) : Finset Nat :=
  match (observed_numbers image_files).min?, (observed_numbers image_files).max? with
  | some lo, some hi => Finset.Icc lo hi \ (observed_numbers image_files).toFinset
  | _, _ => ∅

/-- A readable 2x2 RGB tile, used to instantiate universally quantified
theorems at concrete inputs. -/
def tile2x2 : Piece :=
  { filename := "piece_0.png", width := 2, height := 2, mode := Mode.RGB, readOk := true }

/-- A readable 1-pixel-wide vertical strip. -/
def stripV : Piece :=
  { filename := "strip_0.png", width := 1, height := 5, mode := Mode.RGB, readOk := true }

/-- A readable 1-pixel-tall horizontal strip. -/
def stripH : Piece :=
  { filename := "strip_1.png", width := 5, height := 1, mode := Mode.RGB, readOk := true }

/-! ### Helper lemmas -/

lemma sqrt_eq_of {n s : Nat} (h1 : s * s ≤ n) (h2 : n < (s + 1) * (s + 1)) :
    Nat.sqrt n = s :=
  Nat.le_antisymm (Nat.lt_succ_iff.mp (Nat.sqrt_lt.mpr h2)) (Nat.le_sqrt.mpr h1)

lemma sqrt_1000 : Nat.sqrt 1000 = 31 :=
  sqrt_eq_of (by norm_num) (by norm_num)

lemma one_le_sqrt {n : Nat} (hn : 1 ≤ n) : 1 ≤ Nat.sqrt n :=
  Nat.le_sqrt.mpr (by simpa using hn)

lemma divisor_search_succ (n c : Nat) :
    divisor_search n (c + 1) =
      if n % (c + 1) = 0 then some (c + 1) else divisor_search n c := rfl

lemma divisor_search_isSome (n : Nat) :
    ∀ s : Nat, 1 ≤ s → (divisor_search n s).isSome = true := by
  intro s
  induction s with
  | zero => intro h; omega
  | succ c ih =>
    intro _
    rw [divisor_search_succ]
    by_cases hmod : n % (c + 1) = 0
    · simp [hmod]
    · rcases Nat.eq_zero_or_pos c with hc | hc
      · subst hc; simp [Nat.mod_one] at hmod
      · simpa [hmod] using ih hc

lemma divisor_search_spec (n : Nat) :
    ∀ s c : Nat, divisor_search n s = some c →
      c ∣ n ∧ 1 ≤ c ∧ c ≤ s ∧ ∀ d, c < d → d ≤ s → ¬ d ∣ n := by
  intro s
  induction s with
  | zero => intro c h; simp [divisor_search] at h
  | succ t ih =>
    intro c h
    rw [divisor_search_succ] at h
    by_cases hmod : n % (t + 1) = 0
    · rw [if_pos hmod] at h
      obtain rfl : t + 1 = c := by injection h
      refine ⟨Nat.dvd_of_mod_eq_zero hmod, by omega, Nat.le_refl _, ?_⟩
      intro d hlt hle
      omega
    · rw [if_neg hmod] at h
      obtain ⟨hdvd, h1, hle, hmax⟩ := ih c h
      refine ⟨hdvd, h1, Nat.le_succ_of_le hle, ?_⟩
      intro d hlt hld hddvd
      rcases Nat.lt_succ_iff_lt_or_eq.mp (Nat.lt_succ_of_le hld) with hd | hd
      · exact hmax d hlt (by omega) hddvd
      · subst hd
        exact hmod (Nat.dvd_iff_mod_eq_zero.mp hddvd)

lemma determine_grid_layout_cons (p : Piece) (rest : List Piece) (hp : p.readOk = true) :
    determine_grid_layout (p :: rest) =
      Except.ok (grid_layout_core (p :: rest).length p.width p.height) := by
  simp [determine_grid_layout, openPiece, hp, Except.map]

lemma determine_grid_layout_cons_error (p : Piece) (rest : List Piece)
    (hp : p.readOk = false) :
    determine_grid_layout (p :: rest) = Except.error p.filename := by
  simp [determine_grid_layout, openPiece, hp, Except.map]

lemma grid_layout_core_divisor (n w h : Nat) (hn : 1 ≤ n) (hw : w ≠ 1) (hh : h ≠ 1) :
    ∃ c, divisor_search n (Nat.sqrt n) = some c ∧
      grid_layout_core n w h = (c, n / c) := by
  obtain ⟨c, hc⟩ := Option.isSome_iff_exists.mp (divisor_search_isSome n _ (one_le_sqrt hn))
  refine ⟨c, hc, ?_⟩
  unfold grid_layout_core
  rw [if_neg hw, if_neg hh]
  simp only [hc]

lemma layout_1000 (p : Piece) (rest : List Piece) (hp : p.readOk = true)
    (hw : p.width ≠ 1) (hh : p.height ≠ 1) (hlen : (p :: rest).length = 1000) :
    determine_grid_layout (p :: rest) = Except.ok (25, 40) := by
  rw [determine_grid_layout_cons p rest hp, hlen]
  unfold grid_layout_core
  rw [if_neg hw, if_neg hh]
  simp only [sqrt_1000, show divisor_search 1000 31 = some 25 from by decide]

lemma concrete_1000_length : (tile2x2 :: List.replicate 999 tile2x2).length = 1000 := by
  rw [List.length_cons, List.length_replicate]

/-! ### Claim theorems -/

/-- C1 (counterexample): on 1000 pieces of width 2 and height 2 (both > 1),
`determine_grid_layout` does not return `(40, 25)`: it returns `(25, 40)`
(25 is the largest divisor of 1000 that is at most `Nat.sqrt 1000 = 31`). -/
theorem layout_1000_not_40_25 :
    determine_grid_layout (tile2x2 :: List.replicate 999 tile2x2) ≠ Except.ok (40, 25) := by
  rw [layout_1000 tile2x2 (List.replicate 999 tile2x2) rfl (by decide) (by decide)
    concrete_1000_length]
  intro h
  injection h with h
  simp at h

/-- C1 (amended): for a piece count of 1000 with piece width > 1 and piece
height > 1, `determine_grid_layout` returns `(columns, rows) = (25, 40)`. -/
theorem layout_1000_eq_25_40 (p : Piece) (rest : List Piece) (hp : p.readOk = true)
    (hw : 1 < p.width) (hh : 1 < p.height) (hlen : (p :: rest).length = 1000) :
    determine_grid_layout (p :: rest) = Except.ok (25, 40) :=
  layout_1000 p rest hp (by omega) (by omega) hlen

/-- Witness for C1 (amended) at a concrete list of 1000 readable 2x2 tiles. -/
theorem layout_1000_eq_25_40_witness :
    determine_grid_layout (tile2x2 :: List.replicate 999 tile2x2) = Except.ok (25, 40) :=
  layout_1000_eq_25_40 tile2x2 (List.replicate 999 tile2x2) rfl (by decide) (by decide)
    concrete_1000_length

/-- C2: for every piece count `N ≥ 1` with piece width > 1 and piece
height > 1, `determine_grid_layout` returns `(columns, rows)` where
`columns` is the first integer from `Nat.sqrt N` counting down to 1 that
divides `N` (it divides `N`, is at least 1, at most `Nat.sqrt N`, and no
larger integer up to `Nat.sqrt N` divides `N`), and `rows = N / columns`;
consequently `columns * rows = N` and the search always succeeds, so the
fallback branches after the loop are never reached. -/
theorem layout_divisor_search (p : Piece) (rest : List Piece)
    (hp : p.readOk = true) (hw : 1 < p.width) (hh : 1 < p.height) :
    ∃ c r, determine_grid_layout (p :: rest) = Except.ok (c, r) ∧
      c ∣ (p :: rest).length ∧ 1 ≤ c ∧ c ≤ Nat.sqrt (p :: rest).length ∧
      (∀ d, c < d → d ≤ Nat.sqrt (p :: rest).length → ¬ d ∣ (p :: rest).length) ∧
      r = (p :: rest).length / c ∧ c * r = (p :: rest).length := by
  obtain ⟨c, hc, hcore⟩ := grid_layout_core_divisor (p :: rest).length p.width p.height
    (by simp) (by omega) (by omega)
  obtain ⟨hdvd, h1, hle, hmax⟩ := divisor_search_spec (p :: rest).length _ _ hc
  refine ⟨c, (p :: rest).length / c, ?_, hdvd, h1, hle, hmax, rfl,
    Nat.mul_div_cancel' hdvd⟩
  rw [determine_grid_layout_cons p rest hp, hcore]

/-- Witness for C2 at 12 readable 2x2 tiles: the layout is `(3, 4)`. -/
theorem layout_divisor_search_witness :
    ∃ c r, determine_grid_layout (tile2x2 :: List.replicate 11 tile2x2) = Except.ok (c, r) ∧
      c ∣ (tile2x2 :: List.replicate 11 tile2x2).length ∧ 1 ≤ c ∧
      c ≤ Nat.sqrt (tile2x2 :: List.replicate 11 tile2x2).length ∧
      (∀ d, c < d → d ≤ Nat.sqrt (tile2x2 :: List.replicate 11 tile2x2).length →
        ¬ d ∣ (tile2x2 :: List.replicate 11 tile2x2).length) ∧
      r = (tile2x2 :: List.replicate 11 tile2x2).length / c ∧
      c * r = (tile2x2 :: List.replicate 11 tile2x2).length :=
  layout_divisor_search tile2x2 (List.replicate 11 tile2x2) rfl (by decide) (by decide)

/-- C3: for every piece count `N > 1`, if the first piece is 1 pixel wide
the layout is a single row (`(N, 1)`); otherwise, if the first piece is
1 pixel tall, the layout is a single column (`(1, N)`). -/
theorem layout_one_pixel_strips (p : Piece) (rest : List Piece)
    (hp : p.readOk = true) (_hN : 1 < (p :: rest).length) :
    (p.width = 1 → determine_grid_layout (p :: rest) = Except.ok ((p :: rest).length, 1)) ∧
    (p.width ≠ 1 → p.height = 1 →
      determine_grid_layout (p :: rest) = Except.ok (1, (p :: rest).length)) := by
  constructor
  · intro hw
    rw [determine_grid_layout_cons p rest hp]
    unfold grid_layout_core
    rw [if_pos hw]
  · intro hw hh
    rw [determine_grid_layout_cons p rest hp]
    unfold grid_layout_core
    rw [if_neg hw, if_pos hh]

/-- Witness for C3: two vertical 1-pixel strips give `(2, 1)`, two
horizontal 1-pixel strips give `(1, 2)`. -/
theorem layout_one_pixel_strips_witness :
    determine_grid_layout [stripV, stripV] = Except.ok (2, 1) ∧
    determine_grid_layout [stripH, stripH] = Except.ok (1, 2) :=
  ⟨(layout_one_pixel_strips stripV [stripV] rfl (by decide)).1 rfl,
   (layout_one_pixel_strips stripH [stripH] rfl (by decide)).2 (by decide) rfl⟩

/-- C10: `determine_grid_layout` returns `(1, 1)` on the empty piece list
(before opening any file), and for every piece list on which it succeeds
the returned pair satisfies `columns * rows ≥ number of pieces`. -/
theorem layout_covers_pieces :
    determine_grid_layout ([] : List Piece) = Except.ok (1, 1) ∧
    ∀ (ps : List Piece) (c r : Nat),
      determine_grid_layout ps = Except.ok (c, r) → ps.length ≤ c * r := by
  refine ⟨rfl, ?_⟩
  intro ps c r h
  match ps with
  | [] =>
    obtain ⟨rfl, rfl⟩ : 1 = c ∧ 1 = r := by
      simpa [determine_grid_layout, Prod.ext_iff] using h
    simp
  | p :: rest =>
    cases hp : p.readOk with
    | false => rw [determine_grid_layout_cons_error p rest hp] at h; exact absurd h (by simp)
    | true =>
      rw [determine_grid_layout_cons p rest hp] at h
      have hcore : grid_layout_core (p :: rest).length p.width p.height = (c, r) := by
        injection h
      by_cases hw : p.width = 1
      · unfold grid_layout_core at hcore
        rw [if_pos hw] at hcore
        injection hcore with h1 h2
        subst h2
        omega
      · by_cases hh : p.height = 1
        · unfold grid_layout_core at hcore
          rw [if_neg hw, if_pos hh] at hcore
          injection hcore with h1 h2
          subst h1
          omega
        · obtain ⟨d, hd, hcore'⟩ :=
            grid_layout_core_divisor (p :: rest).length p.width p.height (by simp) hw hh
          rw [hcore'] at hcore
          obtain ⟨hdvd, -, -, -⟩ := divisor_search_spec (p :: rest).length _ _ hd
          injection hcore with h1 h2
          rw [← h1, ← h2, Nat.mul_div_cancel' hdvd]

/-- Witness for C10 at a one-piece list: the layout `(1, 1)` covers it. -/
theorem layout_covers_pieces_witness : [tile2x2].length ≤ 1 * 1 :=
  layout_covers_pieces.2 [tile2x2] 1 1 rfl

/-! ### Composer lemmas -/

lemma ok_bind {α β : Type} (a : α) (f : α → Except String β) :
    (Except.ok a >>= f) = f a := rfl

lemma error_bind {α β : Type} (e : String) (f : α → Except String β) :
    ((Except.error e : Except String α) >>= f) = Except.error e := rfl

/-- The pixel position pasted for index `i` in a grid of `c` columns,
with pieces of size `w` x `h`. -/
def placement_at (c w h : Nat) (i : Nat) : Placement :=
  ⟨i, (i % c) * w, (i / c) * h⟩

lemma paste_loop_of_readOk (c r w h : Nat) :
    ∀ (l : List Piece) (i : Nat), (∀ q ∈ l, q.readOk = true) →
      paste_loop c r w h i l =
        Except.ok ((List.range' i (min l.length (c * r - i))).map (placement_at c w h)) := by
  intro l
  induction l with
  | nil => intro i _; simp [paste_loop]
  | cons p rest ih =>
    intro i hread
    simp only [paste_loop]
    by_cases hbreak : c * r ≤ i
    · rw [if_pos hbreak]
      have h0 : c * r - i = 0 := by omega
      simp [h0]
    · rw [if_neg hbreak]
      have hp : p.readOk = true := hread p (by simp)
      have hrest : ∀ q ∈ rest, q.readOk = true := fun q hq => hread q (by simp [hq])
      have hopen : openPiece p = Except.ok ⟨p.width, p.height, p.mode⟩ := by
        simp [openPiece, hp]
      rw [hopen]
      simp only [ok_bind]
      rw [ih (i + 1) hrest]
      simp only [ok_bind]
      have h1 : min (p :: rest).length (c * r - i) =
          min rest.length (c * r - (i + 1)) + 1 := by
        simp only [List.length_cons]
        omega
      rw [h1, List.range'_succ, List.map_cons]
      rfl

/-- Unfolding of `reconstruct_image` on a non-empty, fully readable list:
the saved image, in terms of the core layout computation. -/
lemma reconstruct_image_of_readOk (p : Piece) (rest : List Piece)
    (hread : ∀ q ∈ p :: rest, q.readOk = true) (c r : Nat)
    (hlay : grid_layout_core (p :: rest).length p.width p.height = (c, r)) :
    reconstruct_image (p :: rest) = Except.ok (some
      { width := p.width * c
        height := p.height * r
        mode := if p.mode = Mode.RGB ∨ p.mode = Mode.RGBA then p.mode else Mode.RGB
        placements := (List.range (min (p :: rest).length (c * r))).map (placement_at c p.width p.height)
        pieces_placed :=
          ((List.range (min (p :: rest).length (c * r))).map (placement_at c p.width p.height)).length }) := by
  have hp : p.readOk = true := hread p (by simp)
  have hopen : openPiece p = Except.ok ⟨p.width, p.height, p.mode⟩ := by
    simp [openPiece, hp]
  have hlayout : determine_grid_layout (p :: rest) = Except.ok (c, r) := by
    rw [determine_grid_layout_cons p rest hp, hlay]
  simp only [reconstruct_image]
  rw [hopen]
  simp only [ok_bind]
  rw [hlayout]
  simp only [ok_bind]
  rw [paste_loop_of_readOk c r p.width p.height (p :: rest) 0 hread]
  simp only [ok_bind]
  rw [List.range_eq_range', Nat.sub_zero]

/-- C4: on every non-empty piece sequence whose pieces are all readable,
`reconstruct_image` saves an image whose pixel dimensions are exactly
`(columns * piece_width, rows * piece_height)`, where `(columns, rows)`
is the layout returned by `determine_grid_layout` and the piece
dimensions come from the first piece. -/
theorem reconstruct_dims (p : Piece) (rest : List Piece)
    (hread : ∀ q ∈ p :: rest, q.readOk = true) :
    ∃ c r img, determine_grid_layout (p :: rest) = Except.ok (c, r) ∧
      reconstruct_image (p :: rest) = Except.ok (some img) ∧
      img.width = c * p.width ∧ img.height = r * p.height := by
  have hp : p.readOk = true := hread p (by simp)
  rcases hl : grid_layout_core (p :: rest).length p.width p.height with ⟨c, r⟩
  exact ⟨c, r, _, by rw [determine_grid_layout_cons p rest hp, hl],
    reconstruct_image_of_readOk p rest hread c r hl,
    Nat.mul_comm p.width c, Nat.mul_comm p.height r⟩

/-- Witness for C4 at two readable 2x2 tiles (layout `(1, 2)`). -/
theorem reconstruct_dims_witness :
    ∃ c r img, determine_grid_layout [tile2x2, tile2x2] = Except.ok (c, r) ∧
      reconstruct_image [tile2x2, tile2x2] = Except.ok (some img) ∧
      img.width = c * tile2x2.width ∧ img.height = r * tile2x2.height :=
  reconstruct_dims tile2x2 [tile2x2] (by decide)

/-- C5: on every non-empty piece sequence whose pieces are all readable,
with layout `(columns, rows)`, `reconstruct_image` pastes piece `i`, for
each `i` from 0 to `min(N, columns*rows) - 1`, at pixel offset
`((i mod columns) * piece_width, (i div columns) * piece_height)`, and
places exactly `min(N, columns*rows)` pieces, succeeding (non-fatally)
also when `N` exceeds `columns*rows`. -/
theorem reconstruct_places_row_major (p : Piece) (rest : List Piece)
    (hread : ∀ q ∈ p :: rest, q.readOk = true) :
    ∃ c r img, determine_grid_layout (p :: rest) = Except.ok (c, r) ∧
      reconstruct_image (p :: rest) = Except.ok (some img) ∧
      img.placements = (List.range (min (p :: rest).length (c * r))).map
        (fun i => ⟨i, (i % c) * p.width, (i / c) * p.height⟩) ∧
      img.pieces_placed = min (p :: rest).length (c * r) := by
  have hp : p.readOk = true := hread p (by simp)
  rcases hl : grid_layout_core (p :: rest).length p.width p.height with ⟨c, r⟩
  exact ⟨c, r, _, by rw [determine_grid_layout_cons p rest hp, hl],
    reconstruct_image_of_readOk p rest hread c r hl, rfl,
    by simp [List.length_map, List.length_range]⟩

/-- Witness for C5: three readable 2x2 tiles on the `(1, 3)` layout. -/
theorem reconstruct_places_row_major_witness :
    ∃ c r img, determine_grid_layout [tile2x2, tile2x2, tile2x2] = Except.ok (c, r) ∧
      reconstruct_image [tile2x2, tile2x2, tile2x2] = Except.ok (some img) ∧
      img.placements = (List.range (min [tile2x2, tile2x2, tile2x2].length (c * r))).map
        (fun i => ⟨i, (i % c) * tile2x2.width, (i / c) * tile2x2.height⟩) ∧
      img.pieces_placed = min [tile2x2, tile2x2, tile2x2].length (c * r) :=
  reconstruct_places_row_major tile2x2 [tile2x2, tile2x2] (by decide)

/-- A readable 2x2 piece in PIL mode `LA` (grayscale with an explicit
alpha channel), as decoded from a grayscale+alpha PNG. -/
def laPiece : Piece :=
  { filename := "piece_0.png", width := 2, height := 2, mode := Mode.LA, readOk := true }

/-- C6 (code divergence): the mode `LA` has an explicit transparency
channel, yet `reconstruct_image` on a piece of mode `LA` creates the
canvas in the 3-channel mode `RGB`, not a 4-channel mode - the
normalisation at line 147 keeps a 4-channel mode only for `RGBA`,
contradicting the comment "Use RGBA if source images have alpha channel"
(line 145). -/
theorem canvas_mode_drops_LA_alpha :
    Mode.hasAlphaChannel Mode.LA = true ∧
    reconstruct_image [laPiece] = Except.ok (some ⟨2, 2, Mode.RGB, [⟨0, 0, 0⟩], 1⟩) ∧
    Mode.channels Mode.RGB = 3 :=
  ⟨rfl, rfl, rfl⟩

lemma paste_loop_error (c r w h : Nat) :
    ∀ (l : List Piece) (i j : Nat) (hj : j < l.length),
      (l.get ⟨j, hj⟩).readOk = false → i + j < c * r →
      ∃ e, paste_loop c r w h i l = Except.error e := by
  intro l
  induction l with
  | nil => intro i j hj; simp at hj
  | cons p rest ih =>
    intro i j hj hfail hlt
    simp only [paste_loop]
    rw [if_neg (by omega)]
    cases j with
    | zero =>
      have hp : p.readOk = false := hfail
      refine ⟨p.filename, ?_⟩
      rw [show openPiece p = Except.error p.filename from by simp [openPiece, hp]]
      rfl
    | succ k =>
      cases hp : p.readOk with
      | false =>
        refine ⟨p.filename, ?_⟩
        rw [show openPiece p = Except.error p.filename from by simp [openPiece, hp]]
        rfl
      | true =>
        obtain ⟨e, he⟩ := ih (i + 1) k (by simpa using hj) (by simpa using hfail) (by omega)
        refine ⟨e, ?_⟩
        rw [show openPiece p = Except.ok ⟨p.width, p.height, p.mode⟩ from by
          simp [openPiece, hp]]
        simp only [ok_bind]
        rw [he]
        rfl

/-- C9: if reading a piece fails during composition - the piece sits at
an index that the placement loop reaches (any index below
`columns * rows`; an unreadable first piece fails even earlier, at the
probing step) - then `reconstruct_image` propagates the error and never
reaches the save step: no image is ever produced. -/
theorem read_failure_no_save (p : Piece) (rest : List Piece) (i : Nat)
    (hi : i < (p :: rest).length)
    (hfail : ((p :: rest).get ⟨i, hi⟩).readOk = false)
    (hin : ∀ c r, determine_grid_layout (p :: rest) = Except.ok (c, r) → i < c * r) :
    ∃ e, reconstruct_image (p :: rest) = Except.error e := by
  cases hp : p.readOk with
  | false =>
    refine ⟨p.filename, ?_⟩
    simp only [reconstruct_image]
    rw [show openPiece p = Except.error p.filename from by simp [openPiece, hp]]
    rfl
  | true =>
    rcases hl : grid_layout_core (p :: rest).length p.width p.height with ⟨c, r⟩
    have hlayout : determine_grid_layout (p :: rest) = Except.ok (c, r) := by
      rw [determine_grid_layout_cons p rest hp, hl]
    obtain ⟨e, he⟩ :=
      paste_loop_error c r p.width p.height (p :: rest) 0 i hi hfail
        (by simpa using hin c r hlayout)
    refine ⟨e, ?_⟩
    simp only [reconstruct_image]
    rw [show openPiece p = Except.ok ⟨p.width, p.height, p.mode⟩ from by
      simp [openPiece, hp]]
    simp only [ok_bind]
    rw [hlayout]
    simp only [ok_bind]
    rw [he]
    rfl

/-- An unreadable strip file: `Image.open` raises on it. -/
def badStrip : Piece :=
  { filename := "strip_1.png", width := 1, height := 5, mode := Mode.RGB, readOk := false }

/-- Witness for C9: a readable strip followed by an unreadable one - the
layout is `(2, 1)` so index 1 is inside the grid, and composition fails. -/
theorem read_failure_no_save_witness :
    ∃ e, reconstruct_image [stripV, badStrip] = Except.error e :=
  read_failure_no_save stripV [badStrip] 1 (by decide) rfl
    (fun c r h => by
      rw [show determine_grid_layout [stripV, badStrip] = Except.ok (2, 1) from rfl] at h
      injection h with h
      injection h with h1 h2
      subst h1
      subst h2
      decide)

/-! ### Locator lemmas -/

lemma number_le_trans (a b c : String) :
    number_le a b → number_le b c → number_le a c := by
  simp only [number_le, decide_eq_true_eq]
  exact Nat.le_trans

lemma number_le_total (a b : String) : number_le a b || number_le b a := by
  simp only [number_le, Bool.or_eq_true, decide_eq_true_eq]
  exact Nat.le_total _ _

/-- C7: for every list of discovered image files, the locator returns
them sorted ascending by sequence number - the integer value of the
first maximal run of decimal digits in the filename (not the directory
path), 0 when the filename has no digit - the output has the same length
as the input, and ties keep their relative input order (stability). -/
theorem locator_sorts_by_number (files : List String) :
    List.Sorted (fun a b => extract_number_from_filename a ≤ extract_number_from_filename b)
      (sort_image_files files) ∧
    (sort_image_files files).length = files.length ∧
    (∀ a b, [a, b].Sublist files →
      extract_number_from_filename a = extract_number_from_filename b →
      [a, b].Sublist (sort_image_files files)) ∧
    extract_number_from_filename "strip_0245.png" = 245 ∧
    extract_number_from_filename "pieces7/shard.png" = 0 ∧
    extract_number_from_filename "img12extra34.png" = 12 := by
  refine ⟨?_, ?_, ?_, by decide, by decide, by decide⟩
  · have h := List.sorted_mergeSort number_le_trans number_le_total files
    exact h.imp fun hab => by simpa [number_le] using hab
  · exact List.length_mergeSort files
  · intro a b hsub heq
    exact List.pair_sublist_mergeSort number_le_trans number_le_total
      (by simp [number_le, heq]) hsub

/-- Witness for C7 at a concrete three-file list. -/
theorem locator_sorts_by_number_witness :
    (sort_image_files ["b_2.png", "x_1.png", "a_2.png"]).length =
      (["b_2.png", "x_1.png", "a_2.png"] : List String).length :=
  (locator_sorts_by_number ["b_2.png", "x_1.png", "a_2.png"]).2.1

/-- C8: for every non-empty list of discovered files with observed
minimum `lo` and maximum `hi`, the reported missing set contains exactly
the integers of the closed range `[lo, hi]` absent from the observed
sequence numbers; in particular files numbered 0, 1, 3, 4 yield the
missing set `{2}`. -/
theorem locator_reports_missing (files : List String) (m lo hi : Nat)
    (hlo : (observed_numbers files).min? = some lo)
    (hhi : (observed_numbers files).max? = some hi) :
    (m ∈ missing_numbers files ↔ lo ≤ m ∧ m ≤ hi ∧ m ∉ observed_numbers files) ∧
    missing_numbers ["piece_0.png", "piece_1.png", "piece_3.png", "piece_4.png"] = {2} := by
  refine ⟨?_, by decide⟩
  simp [missing_numbers, hlo, hhi, Finset.mem_sdiff, Finset.mem_Icc, and_assoc]

/-- Witness for C8 at the four files numbered 0, 1, 3, 4. -/
theorem locator_reports_missing_witness :
    (2 ∈ missing_numbers ["piece_0.png", "piece_1.png", "piece_3.png", "piece_4.png"] ↔
      0 ≤ 2 ∧ 2 ≤ 4 ∧
      2 ∉ observed_numbers ["piece_0.png", "piece_1.png", "piece_3.png", "piece_4.png"]) ∧
    missing_numbers ["piece_0.png", "piece_1.png", "piece_3.png", "piece_4.png"] = {2} :=
  locator_reports_missing ["piece_0.png", "piece_1.png", "piece_3.png", "piece_4.png"]
    2 0 4 rfl rfl

end FixyFixy
